import Mathlib

/-!
Shallow embedding of the admission-control and notification core of the
mini-compete repository (NestJS/Prisma backend).

The embedding translates:
  * `CompetitionsService.register` (apps/backend/src/competitions/competitions.service.ts)
  * `QueueService.addConfirmationEmail` / `addReminderEmail` (apps/backend/src/queue/queue.service.ts)
  * `QueueProcessor.handleConfirmation` (apps/backend/src/queue/queue.processor.ts)
into pure Lean functions over an explicit store state.  Times are epoch
milliseconds as `Nat`; ids are `Nat`; the Prisma store is a record of lists.
The Prisma schema (README) declares `@@unique([userId, competitionId])` and
`idempotencyKey String? @unique` on `Registration`; those constraints appear
as well-formedness predicates and as the insert-time violation check used by
the concurrent-execution model.
-/

namespace MiniCompete

/-- User row (prisma model User): only the fields the core reads. -/
structure User where
  id : Nat
  name : String
  email : String
  deriving DecidableEq, Repr

/-- Competition row (prisma model Competition): id, capacity, regDeadline,
optional startDate, soft-delete marker. -/
structure Competition where
  id : Nat
  title : String
  capacity : Nat
  regDeadline : Nat
  startDate : Option Nat
  deletedAt : Option Nat
  deriving DecidableEq, Repr

/-- Registration row (prisma model Registration). -/
structure Registration where
  id : Nat
  userId : Nat
  competitionId : Nat
  idempotencyKey : Option String
  registeredAt : Nat
  deletedAt : Option Nat
  deriving DecidableEq, Repr

/-- MailBox row (prisma model MailBox): the simulated outgoing e-mail.
`toEmail` renders the source column `to`, a reserved word in Lean. -/
structure MailBox where
  userId : Nat
  toEmail : String
  subject : String
  body : String
  jobId : Option Nat
  deriving DecidableEq, Repr

/-- FailedJob row (prisma model FailedJob): the dead-letter table.  `jobData`
is flattened to the three payload references the processor stores. -/
structure FailedJob where
  jobName : String
  registrationId : Nat
  userId : Nat
  competitionId : Nat
  error : String
  attempts : Nat
  deriving DecidableEq, Repr

/-- A queued Bull job as produced by `QueueService`: name, payload references,
retry configuration (`attempts`, exponential `backoff.delay`), and the number
of attempts already made (`job.attemptsMade`, 0 before the first run). -/
structure Job where
  id : Nat
  name : String
  registrationId : Nat
  userId : Nat
  competitionId : Nat
  attemptsMade : Nat
  maxAttempts : Nat
  backoffBase : Nat
  deriving DecidableEq, Repr

/-- The transactional Prisma store: one list per table the core touches. -/
structure Store where
  users : List User
  competitions : List Competition
  registrations : List Registration
  mailBox : List MailBox
  failedJobs : List FailedJob
  deriving DecidableEq, Repr

/-- Typed admission errors thrown by `register`: NotFoundException,
BadRequestException (deadline), ConflictException (full), ConflictException
(already registered), and the Prisma P2002 unique-constraint violation that an
unserialized concurrent insert can raise. -/
inductive AdmitError where
  | notFound
  | deadlineExceeded
  | capacityExceeded
  | alreadyRegistered
  | uniqueViolation
  deriving DecidableEq, Repr

/-- `tx.competition.findUnique({ where: { id } })`. -/
def findCompetition (s : Store) (cid : Nat) : Option Competition :=
  s.competitions.find? (fun c => c.id = cid)

/-- `_count: { select: { registrations: true } }`: the number of Registration
rows referencing the competition (Prisma `_count` does not filter on
`deletedAt`). -/
def countRegistrations (s : Store) (cid : Nat) : Nat :=
  (s.registrations.filter (fun r => r.competitionId = cid)).length

/-- `tx.registration.findUnique({ where: { userId_competitionId } })`:
lookup on the `@@unique([userId, competitionId])` index. -/
def findByPair (s : Store) (uid cid : Nat) : Option Registration :=
  s.registrations.find? (fun r => r.userId = uid && r.competitionId = cid)

/-- `prisma.registration.findUnique({ where: { idempotencyKey } })`:
lookup on the unique `idempotencyKey` column. -/
def findByKey (s : Store) (k : String) : Option Registration :=
  s.registrations.find? (fun r => r.idempotencyKey = some k)

/-- The validation/insert body of the `prisma.$transaction` callback in
`CompetitionsService.register`, evaluated against the snapshot `s` the
transaction reads: NotFound if the competition is absent or soft-deleted,
DeadlineExceeded if `new Date() > competition.regDeadline`, CapacityExceeded
if `_count.registrations >= capacity`, AlreadyRegistered if a row for
(userId, competitionId) exists, otherwise the Registration row that
`tx.registration.create` builds (carrying the idempotency key). -/
def registerTx (s : Store) (now cid uid : Nat) (key : Option String)
    (newId : Nat) : Except AdmitError Registration :=
  match findCompetition s cid with
  | none => .error .notFound
  | some comp =>
    if comp.deletedAt.isSome then .error .notFound
    else if comp.regDeadline < now then .error .deadlineExceeded
    else if comp.capacity ≤ countRegistrations s cid then .error .capacityExceeded
    else if (findByPair s uid cid).isSome then .error .alreadyRegistered
    else .ok { id := newId, userId := uid, competitionId := cid,
               idempotencyKey := key, registeredAt := now, deletedAt := none }

/-- Committing the transaction appends the created Registration row. -/
def commitRegistration (s : Store) (r : Registration) : Store :=
  { s with registrations := s.registrations ++ [r] }

/-- The insert-time check the database performs for the two unique
constraints on Registration (`@@unique([userId, competitionId])` and
`idempotencyKey @unique`); a violation raises Prisma error P2002. -/
def insertViolates (s : Store) (r : Registration) : Bool :=
  (findByPair s r.userId r.competitionId).isSome ||
    (match r.idempotencyKey with
     | some k => (findByKey s k).isSome
     | none => false)

/-- `QueueService.addConfirmationEmail`: adds a `sendConfirmation` job with
the {registrationId, userId, competitionId} payload and retry options
`attempts: 3`, exponential backoff `delay: 2000`. -/
def addConfirmationEmail (q : List Job) (jobId regId uid cid : Nat) : List Job :=
  q ++ [{ id := jobId, name := "sendConfirmation", registrationId := regId,
          userId := uid, competitionId := cid, attemptsMade := 0,
          maxAttempts := 3, backoffBase := 2000 }]

/-- `QueueService.addReminderEmail`: adds a `sendReminder` job with the same
payload shape and retry options (`attempts: 3`, exponential `delay: 2000`). -/
def addReminderEmail (q : List Job) (jobId regId uid cid : Nat) : List Job :=
  q ++ [{ id := jobId, name := "sendReminder", registrationId := regId,
          userId := uid, competitionId := cid, attemptsMade := 0,
          maxAttempts := 3, backoffBase := 2000 }]

deriving instance DecidableEq for Except

/-- Result of one `register` call: the returned value or thrown error, the
database store after the call, and the queue after the call. -/
structure RegisterResult where
  result : Except AdmitError Registration
  store : Store
  queue : List Job
  deriving DecidableEq, Repr

/-- The no-idempotency-hit tail of `register`: run the transaction; on error
the store is unchanged; on success commit the row and enqueue the
confirmation e-mail.  `enqueueFails` models `queueService.addConfirmationEmail`
throwing: the catch block only logs, so the committed registration is still
returned and the queue is left as it was. -/
def registerNoHit (s : Store) (q : List Job) (now cid uid : Nat)
    (key : Option String) (newRegId newJobId : Nat) (enqueueFails : Bool) :
    RegisterResult :=
  match registerTx s now cid uid key newRegId with
  | .error e => ⟨.error e, s, q⟩
  | .ok r =>
    let s1 := commitRegistration s r
    if enqueueFails then ⟨.ok r, s1, q⟩
    else ⟨.ok r, s1, addConfirmationEmail q newJobId r.id uid cid⟩

/-- `CompetitionsService.register(competitionId, userId, idempotencyKey?)`:
if a key is supplied and a Registration with that key exists, return it
verbatim (before any transaction and before any enqueue); otherwise run the
transactional admission path. -/
def register (s : Store) (q : List Job) (now cid uid : Nat)
    (key : Option String) (newRegId newJobId : Nat) (enqueueFails : Bool) :
    RegisterResult :=
  match key with
  | some k =>
    match findByKey s k with
    | some existing => ⟨.ok existing, s, q⟩
    | none => registerNoHit s q now cid uid key newRegId newJobId enqueueFails
  | none => registerNoHit s q now cid uid key newRegId newJobId enqueueFails

/-- Two `register` calls racing on the same committed state `s`.  The source
transaction reads the competition with a plain `findUnique` (no `FOR UPDATE`
locking read, despite the comment claiming a row lock) and requests no
isolation level, so under the database default (read committed) both
transactions may execute their read/validate phase against `s` before either
commits; each insert is then checked only against the unique constraints
(which do not cover capacity).  First call commits first. -/
def registerRacePair (s : Store) (now cid uid1 uid2 id1 id2 : Nat) :
    Except AdmitError Registration × Except AdmitError Registration × Store :=
  match registerTx s now cid uid1 none id1, registerTx s now cid uid2 none id2 with
  | .ok r1, .ok r2 =>
    let s1 := commitRegistration s r1
    if insertViolates s1 r2 then (.ok r1, .error .uniqueViolation, s1)
    else (.ok r1, .ok r2, commitRegistration s1 r2)
  | .ok r1, .error e2 => (.ok r1, .error e2, commitRegistration s r1)
  | .error e1, .ok r2 => (.error e1, .ok r2, commitRegistration s r2)
  | .error e1, .error e2 => (.error e1, .error e2, s)

/-- `QueueProcessor.handleConfirmation` (processor for `sendConfirmation`):
look up the registration with its user and competition; if found, create a
MailBox row (addressed to `registration.user.email`, tagged with the job id);
on any thrown error the catch block appends a FailedJob row recording the
job name, payload, error message and `job.attemptsMade`, then rethrows.
Returns the store after the run and `some errorMessage` when the handler
threw (so the job counts as failed), `none` on success. -/
def handleConfirmation (s : Store) (j : Job) : Store × Option String :=
  match s.registrations.find? (fun r => r.id = j.registrationId) with
  | none =>
    let msg := "Registration not found"
    ({ s with failedJobs := s.failedJobs ++
        [{ jobName := "sendConfirmation", registrationId := j.registrationId,
           userId := j.userId, competitionId := j.competitionId,
           error := msg, attempts := j.attemptsMade }] }, some msg)
  | some reg =>
    match s.users.find? (fun u => u.id = reg.userId),
          s.competitions.find? (fun c => c.id = reg.competitionId) with
    | some u, some c =>
      ({ s with mailBox := s.mailBox ++
          [{ userId := j.userId, toEmail := u.email,
             subject := "Registration Confirmed: " ++ c.title,
             body := "Dear " ++ u.name ++
               ",\n\nYou have successfully registered for " ++ c.title ++
               ".\n\nBest regards,\nMini Compete Team",
             jobId := some j.id }] }, none)
    | _, _ =>
      let msg := "relation load failed"
      ({ s with failedJobs := s.failedJobs ++
          [{ jobName := "sendConfirmation", registrationId := j.registrationId,
             userId := j.userId, competitionId := j.competitionId,
             error := msg, attempts := j.attemptsMade }] }, some msg)

/-- Outcome of driving one job to completion: final store, the backoff delays
of each reschedule in order, the number of handler executions, and whether
the job is still queued (only when fuel runs out, which the theorems avoid). -/
structure RunResult where
  store : Store
  delays : List Nat
  attemptsExecuted : Nat
  inQueue : Bool
  deriving DecidableEq, Repr

/-- Modelled from the spec: the retry/backoff driver of the Work Queue and
Worker Pool (provided by the external Bull library; the repository only
configures it with `attempts` and exponential `backoff.delay` in
`QueueService`).  Per spec section 4.4: success removes the task; failure
with attempt count still below `maxAttempts` increments the counter and
reschedules with delay `backoffBase * 2 ^ (attempts - 1)`; failure at the
final attempt removes the task permanently with no further redelivery (the
repository's dead-letter recording itself lives in the handler's catch
block, which is embedded in `handleConfirmation`, not here).  `ext n`
models writes committed by other processes between attempts (`n` is the
attempt count already made); the handler itself is the source-embedded
`handleConfirmation`. -/
def runJobFuel : Nat → (Nat → Store → Store) → Store → Job → RunResult
  | 0, _, s, _ => ⟨s, [], 0, true⟩
  | fuel + 1, ext, s, j =>
    let s0 := ext j.attemptsMade s
    match handleConfirmation s0 j with
    | (s1, none) => ⟨s1, [], 1, false⟩
    | (s1, some _) =>
      if j.attemptsMade + 1 < j.maxAttempts then
        let d := j.backoffBase * 2 ^ j.attemptsMade
        let rest := runJobFuel fuel ext s1 { j with attemptsMade := j.attemptsMade + 1 }
        ⟨rest.store, d :: rest.delays, rest.attemptsExecuted + 1, rest.inQueue⟩
      else ⟨s1, [], 1, false⟩

/-- One hour in milliseconds. -/
def hourMs : Nat := 3600000

/-- Modelled from the spec: the Scheduler's window query (the cron service,
listed in the repository's project structure as `cron/cron.service.ts`, is
absent from src/).  Spec section 4.5: competitions whose start time falls in
the fixed lookahead window `[now + 24h, now + 24h + delta)` with a one-day
`delta` (the README sketch uses `[tomorrow, dayAfter)`). -/
def compsInWindow (s : Store) (now : Nat) : List Competition :=
  s.competitions.filter (fun c =>
    match c.startDate with
    | some t => decide (now + 24 * hourMs ≤ t) && decide (t < now + 48 * hourMs)
    | none => false)

/-- Modelled from the spec: the active registrations of a competition, the
rows the Scheduler fans out over (active = not soft-deleted, matching the
`deletedAt: null` filter the service layer applies to registrations). -/
def activeRegs (s : Store) (cid : Nat) : List Registration :=
  s.registrations.filter (fun r => r.competitionId = cid && r.deletedAt = none)

/-- Modelled from the spec: one Scheduler invocation (`sendReminders` in the
absent cron service).  For every competition in the lookahead window and
every active Registration on it, enqueue one Reminder task through the
source-embedded `QueueService.addReminderEmail`; the registration id doubles
as the model's job-id supply. -/
def sendReminders (s : Store) (q : List Job) (now : Nat) : List Job :=
  (compsInWindow s now).foldl
    (fun acc c =>
      (activeRegs s c.id).foldl
        (fun acc2 r => addReminderEmail acc2 r.id r.id r.userId r.competitionId)
        acc)
    q

/-- Well-formedness: the unique constraint on `idempotencyKey` — no two rows
of the registrations table carry the same present key. -/
def keysUnique (s : Store) : Prop :=
  s.registrations.Pairwise
    (fun a b => a.idempotencyKey = none ∨ a.idempotencyKey ≠ b.idempotencyKey)

instance (s : Store) : Decidable (keysUnique s) := by
  unfold keysUnique; infer_instance

/-- Well-formedness: the `@@unique([userId, competitionId])` constraint — no
two rows of the registrations table share a (user, competition) pair. -/
def pairUnique (s : Store) : Prop :=
  s.registrations.Pairwise
    (fun a b => ¬(a.userId = b.userId ∧ a.competitionId = b.competitionId))

instance (s : Store) : Decidable (pairUnique s) := by
  unfold pairUnique; infer_instance

/-- Number of registration rows carrying idempotency key `k`. -/
def keyCount (s : Store) (k : String) : Nat :=
  (s.registrations.filter (fun r => r.idempotencyKey = some k)).length

/-- Number of registration rows for the pair (`uid`, `cid`). -/
def pairCount (s : Store) (uid cid : Nat) : Nat :=
  (s.registrations.filter (fun r => r.userId = uid && r.competitionId = cid)).length

/-- C1: the claim asserts that N concurrent admissions against capacity C
yield exactly min(N, C) successes and a stored count never above C.  On the
code this fails: the transaction takes no locking read and sets no isolation
level, so two admissions for a capacity-1 competition may both validate
against the same committed snapshot; both then insert (the unique
constraints only cover the pair and the key, not capacity), both calls
return success — 2 successes where min(2, 1) = 1 — and the stored
registration count reaches 2 > 1. -/
theorem register_race_exceeds_capacity :
    (registerRacePair
        ⟨[⟨1, "a", "a@x.io"⟩, ⟨2, "b", "b@x.io"⟩],
         [⟨0, "T", 1, 100, none, none⟩], [], [], []⟩
        50 0 1 2 10 11).1 =
      Except.ok ⟨10, 1, 0, none, 50, none⟩ ∧
    (registerRacePair
        ⟨[⟨1, "a", "a@x.io"⟩, ⟨2, "b", "b@x.io"⟩],
         [⟨0, "T", 1, 100, none, none⟩], [], [], []⟩
        50 0 1 2 10 11).2.1 =
      Except.ok ⟨11, 2, 0, none, 50, none⟩ ∧
    countRegistrations
      (registerRacePair
        ⟨[⟨1, "a", "a@x.io"⟩, ⟨2, "b", "b@x.io"⟩],
         [⟨0, "T", 1, 100, none, none⟩], [], [], []⟩
        50 0 1 2 10 11).2.2 0 = 2 := by
  decide

/-- C4 counterexample: the claim asserts a second admit call for an already
registered pair always returns AlreadyRegistered; but when the competition
is full (capacity 1 holding that very registration) the capacity check runs
first and the call returns CapacityExceeded instead. -/
theorem register_duplicate_full_not_alreadyRegistered :
    (register
        ⟨[⟨5, "e", "e@x.io"⟩], [⟨0, "T", 1, 100, none, none⟩],
         [⟨8, 5, 0, none, 10, none⟩], [], []⟩
        [] 50 0 5 none 20 21 false).result =
      Except.error AdmitError.capacityExceeded ∧
    AdmitError.capacityExceeded ≠ AdmitError.alreadyRegistered := by
  decide

/-- C5: the claim asserts a task failing on all 3 allowed attempts produces
exactly one dead-letter entry recording attempts = 3, with none created for
failures below maxAttempts.  On the code the handler's catch block appends a
FailedJob row on every failed attempt: driving a confirmation job for a
missing registration to exhaustion executes 3 attempts (delays 2000 then
4000), removes the job with no redelivery, and leaves three FailedJob rows
whose recorded attempt counts are 0, 1, 2 — three entries, not one, and all
below maxAttempts. -/
theorem deadLetterEntryPerFailure :
    addConfirmationEmail [] 3 9 7 0 = [⟨3, "sendConfirmation", 9, 7, 0, 0, 3, 2000⟩] ∧
    (runJobFuel 10 (fun _ s => s)
        ⟨[⟨7, "N", "n@x.io"⟩], [⟨0, "T", 5, 100, none, none⟩], [], [], []⟩
        ⟨3, "sendConfirmation", 9, 7, 0, 0, 3, 2000⟩).attemptsExecuted = 3 ∧
    (runJobFuel 10 (fun _ s => s)
        ⟨[⟨7, "N", "n@x.io"⟩], [⟨0, "T", 5, 100, none, none⟩], [], [], []⟩
        ⟨3, "sendConfirmation", 9, 7, 0, 0, 3, 2000⟩).inQueue = false ∧
    (runJobFuel 10 (fun _ s => s)
        ⟨[⟨7, "N", "n@x.io"⟩], [⟨0, "T", 5, 100, none, none⟩], [], [], []⟩
        ⟨3, "sendConfirmation", 9, 7, 0, 0, 3, 2000⟩).delays = [2000, 4000] ∧
    ((runJobFuel 10 (fun _ s => s)
        ⟨[⟨7, "N", "n@x.io"⟩], [⟨0, "T", 5, 100, none, none⟩], [], [], []⟩
        ⟨3, "sendConfirmation", 9, 7, 0, 0, 3, 2000⟩).store.failedJobs.map
      FailedJob.attempts) = [0, 1, 2] := by
  decide

/-- C6: the claim asserts a task failing twice then succeeding reschedules at
delays 2s and 4s and produces no dead-letter entry.  On the code the delays
are indeed 2000 ms and 4000 ms and the third attempt succeeds (one MailBox
row), but the handler's catch block has already appended one FailedJob
(dead-letter) row per failed attempt, so two entries exist where the claim
says none.  The environment function supplies the registration row only
before the third attempt, realizing fail-fail-succeed. -/
theorem retryBackoffThenDeadLetters :
    (runJobFuel 10
        (fun n s => if n = 2 then
            { s with registrations := s.registrations ++ [⟨9, 7, 0, none, 0, none⟩] }
          else s)
        ⟨[⟨7, "N", "n@x.io"⟩], [⟨0, "T", 5, 100, none, none⟩], [], [], []⟩
        ⟨3, "sendConfirmation", 9, 7, 0, 0, 3, 2000⟩).delays = [2000, 4000] ∧
    (runJobFuel 10
        (fun n s => if n = 2 then
            { s with registrations := s.registrations ++ [⟨9, 7, 0, none, 0, none⟩] }
          else s)
        ⟨[⟨7, "N", "n@x.io"⟩], [⟨0, "T", 5, 100, none, none⟩], [], [], []⟩
        ⟨3, "sendConfirmation", 9, 7, 0, 0, 3, 2000⟩).attemptsExecuted = 3 ∧
    (runJobFuel 10
        (fun n s => if n = 2 then
            { s with registrations := s.registrations ++ [⟨9, 7, 0, none, 0, none⟩] }
          else s)
        ⟨[⟨7, "N", "n@x.io"⟩], [⟨0, "T", 5, 100, none, none⟩], [], [], []⟩
        ⟨3, "sendConfirmation", 9, 7, 0, 0, 3, 2000⟩).store.mailBox.length = 1 ∧
    (runJobFuel 10
        (fun n s => if n = 2 then
            { s with registrations := s.registrations ++ [⟨9, 7, 0, none, 0, none⟩] }
          else s)
        ⟨[⟨7, "N", "n@x.io"⟩], [⟨0, "T", 5, 100, none, none⟩], [], [], []⟩
        ⟨3, "sendConfirmation", 9, 7, 0, 0, 3, 2000⟩).store.failedJobs.length = 2 := by
  decide

/-- C8: the claim asserts that executing the Confirmation handler twice with
the same payload has the same visible effect as executing it once.  On the
code the handler creates a fresh MailBox row unconditionally (the stored
`jobId` is never consulted and carries no unique constraint), so the second
execution appends a second, duplicate row: one e-mail after one run, two
identical e-mails after two runs. -/
theorem handlerDuplicateMailOnRedelivery :
    (handleConfirmation
        ⟨[⟨7, "N", "n@x.io"⟩], [⟨0, "T", 5, 100, none, none⟩],
         [⟨9, 7, 0, none, 0, none⟩], [], []⟩
        ⟨3, "sendConfirmation", 9, 7, 0, 0, 3, 2000⟩).2 = none ∧
    (handleConfirmation
        ⟨[⟨7, "N", "n@x.io"⟩], [⟨0, "T", 5, 100, none, none⟩],
         [⟨9, 7, 0, none, 0, none⟩], [], []⟩
        ⟨3, "sendConfirmation", 9, 7, 0, 0, 3, 2000⟩).1.mailBox.length = 1 ∧
    (handleConfirmation
        (handleConfirmation
          ⟨[⟨7, "N", "n@x.io"⟩], [⟨0, "T", 5, 100, none, none⟩],
           [⟨9, 7, 0, none, 0, none⟩], [], []⟩
          ⟨3, "sendConfirmation", 9, 7, 0, 0, 3, 2000⟩).1
        ⟨3, "sendConfirmation", 9, 7, 0, 0, 3, 2000⟩).1.mailBox.length = 2 ∧
    (handleConfirmation
        (handleConfirmation
          ⟨[⟨7, "N", "n@x.io"⟩], [⟨0, "T", 5, 100, none, none⟩],
           [⟨9, 7, 0, none, 0, none⟩], [], []⟩
          ⟨3, "sendConfirmation", 9, 7, 0, 0, 3, 2000⟩).1
        ⟨3, "sendConfirmation", 9, 7, 0, 0, 3, 2000⟩).1.mailBox.getLast? =
      (handleConfirmation
        (handleConfirmation
          ⟨[⟨7, "N", "n@x.io"⟩], [⟨0, "T", 5, 100, none, none⟩],
           [⟨9, 7, 0, none, 0, none⟩], [], []⟩
          ⟨3, "sendConfirmation", 9, 7, 0, 0, 3, 2000⟩).1
        ⟨3, "sendConfirmation", 9, 7, 0, 0, 3, 2000⟩).1.mailBox.head? := by
  decide

/-- A `find?` is the head of the corresponding `filter`. -/
theorem find?_eq_head?_filter {α : Type} (p : α → Bool) (l : List α) :
    l.find? p = (l.filter p).head? := by
  induction l with
  | nil => rfl
  | cons h t ih =>
    by_cases hp : p h
    · rw [List.find?_cons_of_pos _ hp, List.filter_cons_of_pos hp, List.head?_cons]
    · simp only [Bool.not_eq_true] at hp
      rw [List.find?_cons_of_neg _ (by simp [hp]), List.filter_cons_of_neg (by simp [hp]), ih]

/-- Under the unique-key constraint, the rows carrying key `k` are exactly
the one member known to carry it. -/
theorem filter_key_unique {l : List Registration} {r : Registration} {k : String}
    (hu : l.Pairwise (fun a b => a.idempotencyKey = none ∨ a.idempotencyKey ≠ b.idempotencyKey))
    (hr : r ∈ l) (hk : r.idempotencyKey = some k) :
    l.filter (fun x => x.idempotencyKey = some k) = [r] := by
  induction l with
  | nil => cases hr
  | cons h t ih =>
    rcases List.pairwise_cons.mp hu with ⟨hP, ht⟩
    rcases List.mem_cons.mp hr with rfl | hrt
    · have hempty : t.filter (fun x => x.idempotencyKey = some k) = [] := by
        apply List.filter_eq_nil_iff.mpr
        intro x hx
        rcases hP x hx with hnone | hne
        · simp [hk] at hnone
        · rw [hk] at hne
          simp only [decide_eq_true_eq]
          intro hxk
          exact hne (by rw [hxk])
      simp [List.filter, hk, hempty]
    · have hne : h.idempotencyKey ≠ some k := by
        rcases hP r hrt with hnone | hne
        · rw [hnone]; exact fun hcon => Option.noConfusion hcon
        · intro hhk
          exact hne (by rw [hhk, hk])
      simp [List.filter, hne, ih ht hrt]

/-- C10: an `admit` call whose idempotency key hits an existing Registration
performs no writes at all: it returns before the transaction and before the
enqueue, so the database store and the queue after the call are exactly
those before it. -/
theorem register_hit_is_pure_read (s : Store) (q : List Job)
    (now cid uid : Nat) (k : String) (rid jid : Nat) (ef : Bool)
    (r : Registration) (h : findByKey s k = some r) :
    (register s q now cid uid (some k) rid jid ef).store = s ∧
    (register s q now cid uid (some k) rid jid ef).queue = q := by
  simp [register, h]

/-- C10 witness: a concrete hit (key "k1" present) leaves a concrete store
and queue untouched. -/
theorem register_hit_is_pure_read_witness :
    (register
        ⟨[⟨5, "e", "e@x.io"⟩], [⟨0, "T", 1, 100, none, none⟩],
         [⟨8, 5, 0, some "k1", 10, none⟩], [], []⟩
        [⟨3, "sendConfirmation", 8, 5, 0, 0, 3, 2000⟩] 50 0 6 (some "k1") 20 21 false).store =
      ⟨[⟨5, "e", "e@x.io"⟩], [⟨0, "T", 1, 100, none, none⟩],
       [⟨8, 5, 0, some "k1", 10, none⟩], [], []⟩ ∧
    (register
        ⟨[⟨5, "e", "e@x.io"⟩], [⟨0, "T", 1, 100, none, none⟩],
         [⟨8, 5, 0, some "k1", 10, none⟩], [], []⟩
        [⟨3, "sendConfirmation", 8, 5, 0, 0, 3, 2000⟩] 50 0 6 (some "k1") 20 21 false).queue =
      [⟨3, "sendConfirmation", 8, 5, 0, 0, 3, 2000⟩] :=
  register_hit_is_pure_read _ _ 50 0 6 "k1" 20 21 false
    ⟨8, 5, 0, some "k1", 10, none⟩ (by decide)

/-- C7: when the admission transaction commits (registerTx succeeds) and the
subsequent confirmation enqueue fails, the call still returns the new
Registration, the committed row stays in the store, and only the queue is
left unchanged — the enqueue failure neither fails the call nor rolls back
the registration. -/
theorem enqueue_failure_keeps_admission (s : Store) (q : List Job)
    (now cid uid : Nat) (key : Option String) (rid jid : Nat)
    (r : Registration)
    (hkey : ∀ k, key = some k → findByKey s k = none)
    (htx : registerTx s now cid uid key rid = Except.ok r) :
    (register s q now cid uid key rid jid true).result = Except.ok r ∧
    (register s q now cid uid key rid jid true).store = commitRegistration s r ∧
    (register s q now cid uid key rid jid true).queue = q := by
  have hnohit : register s q now cid uid key rid jid true =
      registerNoHit s q now cid uid key rid jid true := by
    cases key with
    | none => rfl
    | some k => simp [register, hkey k rfl]
  rw [hnohit]
  simp [registerNoHit, htx]

/-- C7 witness: a concrete successful admission with a failing enqueue still
returns the created row and commits it. -/
theorem enqueue_failure_keeps_admission_witness :
    (register
        ⟨[⟨5, "e", "e@x.io"⟩], [⟨0, "T", 2, 100, none, none⟩], [], [], []⟩
        [] 50 0 5 none 20 21 true).result =
      Except.ok ⟨20, 5, 0, none, 50, none⟩ ∧
    (register
        ⟨[⟨5, "e", "e@x.io"⟩], [⟨0, "T", 2, 100, none, none⟩], [], [], []⟩
        [] 50 0 5 none 20 21 true).store =
      commitRegistration
        ⟨[⟨5, "e", "e@x.io"⟩], [⟨0, "T", 2, 100, none, none⟩], [], [], []⟩
        ⟨20, 5, 0, none, 50, none⟩ ∧
    (register
        ⟨[⟨5, "e", "e@x.io"⟩], [⟨0, "T", 2, 100, none, none⟩], [], [], []⟩
        [] 50 0 5 none 20 21 true).queue = [] :=
  enqueue_failure_keeps_admission _ _ 50 0 5 none 20 21
    ⟨20, 5, 0, none, 50, none⟩ (fun _ hk => Option.noConfusion hk) (by decide)

/-- A committed `registerTx` returns exactly the row built by
`tx.registration.create`, and only after the duplicate-pair check passed. -/
theorem registerTx_ok_elim {s : Store} {now cid uid : Nat}
    {key : Option String} {nid : Nat} {r : Registration}
    (h : registerTx s now cid uid key nid = Except.ok r) :
    r = ⟨nid, uid, cid, key, now, none⟩ ∧ findByPair s uid cid = none := by
  unfold registerTx at h
  cases hc : findCompetition s cid with
  | none => simp [hc] at h
  | some comp =>
    simp only [hc] at h
    by_cases h1 : comp.deletedAt.isSome = true
    · rw [if_pos h1] at h; exact Except.noConfusion h
    · rw [if_neg h1] at h
      by_cases h2 : comp.regDeadline < now
      · rw [if_pos h2] at h; exact Except.noConfusion h
      · rw [if_neg h2] at h
        by_cases h3 : comp.capacity ≤ countRegistrations s cid
        · rw [if_pos h3] at h; exact Except.noConfusion h
        · rw [if_neg h3] at h
          by_cases h4 : (findByPair s uid cid).isSome = true
          · rw [if_pos h4] at h; exact Except.noConfusion h
          · rw [if_neg h4] at h
            cases h
            exact ⟨rfl, by simpa [Option.not_isSome_iff_eq_none] using h4⟩

/-- C3: an `admit` call whose idempotency key hits returns the previously
created Registration verbatim — with no assumption that the competition
still exists, has free capacity, or is before its deadline — mutates
nothing, enqueues nothing, and the store keeps exactly one row for that
key. -/
theorem register_idempotent_hit (s : Store) (q : List Job)
    (now cid uid : Nat) (k : String) (rid jid : Nat) (ef : Bool)
    (r : Registration) (hu : keysUnique s) (hr : r ∈ s.registrations)
    (hk : r.idempotencyKey = some k) :
    (register s q now cid uid (some k) rid jid ef).result = Except.ok r ∧
    (register s q now cid uid (some k) rid jid ef).store = s ∧
    (register s q now cid uid (some k) rid jid ef).queue = q ∧
    keyCount (register s q now cid uid (some k) rid jid ef).store k = 1 := by
  have hu' : s.registrations.Pairwise
      (fun a b => a.idempotencyKey = none ∨ a.idempotencyKey ≠ b.idempotencyKey) := hu
  have hfilter := filter_key_unique hu' hr hk
  have hfind : findByKey s k = some r := by
    unfold findByKey
    rw [find?_eq_head?_filter, hfilter]
    rfl
  have hkc : keyCount s k = 1 := by
    unfold keyCount
    rw [hfilter]
    rfl
  simp [register, hfind, hkc]

/-- C3 witness: the key "k1" hits even though its competition is soft-deleted,
full (capacity 1 with one row), and past its deadline; the stored row comes
back verbatim. -/
theorem register_idempotent_hit_witness :
    (register
        ⟨[⟨5, "e", "e@x.io"⟩], [⟨0, "T", 1, 0, none, some 5⟩],
         [⟨8, 5, 0, some "k1", 10, none⟩], [], []⟩
        [] 50 0 6 (some "k1") 20 21 false).result =
      Except.ok ⟨8, 5, 0, some "k1", 10, none⟩ :=
  (register_idempotent_hit _ [] 50 0 6 "k1" 20 21 false
    ⟨8, 5, 0, some "k1", 10, none⟩ (by decide) (by decide) rfl).1

/-- Every `register` call preserves the `@@unique([userId, competitionId])`
invariant: the only write appends a row whose pair was just checked absent. -/
theorem register_preserves_pairUnique (s : Store) (q : List Job)
    (now cid uid : Nat) (key : Option String) (rid jid : Nat) (ef : Bool)
    (h : pairUnique s) :
    pairUnique (register s q now cid uid key rid jid ef).store := by
  have hnoHit : ∀ b : Bool, pairUnique (registerNoHit s q now cid uid key rid jid b).store := by
    intro b
    unfold registerNoHit
    cases htx : registerTx s now cid uid key rid with
    | error e => exact h
    | ok r =>
      rcases registerTx_ok_elim htx with ⟨hrval, hnone⟩
      have hmem : ∀ a ∈ s.registrations,
          ¬(a.userId = r.userId ∧ a.competitionId = r.competitionId) := by
        intro a ha hcon
        have := List.find?_eq_none.mp hnone a ha
        rw [hrval] at hcon
        simp only [Bool.and_eq_true, decide_eq_true_eq] at this
        exact this ⟨hcon.1, hcon.2⟩
      have hpu : pairUnique (commitRegistration s r) := by
        unfold pairUnique commitRegistration
        rw [List.pairwise_append]
        refine ⟨h, List.pairwise_singleton _ _, ?_⟩
        intro a ha b hb
        rw [List.mem_singleton.mp hb]
        exact hmem a ha
      cases b <;> simpa using hpu
  cases key with
  | none => exact hnoHit ef
  | some k =>
    unfold register
    cases hfk : findByKey s k with
    | none => simpa [hfk] using hnoHit ef
    | some existing => simpa [hfk] using h

/-- C4 (amended): a second admit call for an already-registered pair, without
an idempotency key, always fails and writes nothing; the error is
AlreadyRegistered whenever the earlier checks pass (competition present,
not deleted, deadline not passed, capacity not yet reached), and every
`register` call preserves the at-most-one-row-per-pair invariant. -/
theorem register_duplicate_pair_rejected (s : Store) (q : List Job)
    (now cid uid : Nat) (rid jid : Nat) (ef : Bool) (r : Registration)
    (hpair : findByPair s uid cid = some r) :
    (∃ e, (register s q now cid uid none rid jid ef).result = Except.error e) ∧
    (register s q now cid uid none rid jid ef).store = s ∧
    (register s q now cid uid none rid jid ef).queue = q ∧
    (∀ c, findCompetition s cid = some c → c.deletedAt = none →
        now ≤ c.regDeadline → countRegistrations s cid < c.capacity →
        (register s q now cid uid none rid jid ef).result =
          Except.error AdmitError.alreadyRegistered) ∧
    (∀ s2 q2 now2 cid2 uid2 key2 rid2 jid2 ef2, pairUnique s2 →
        pairUnique (register s2 q2 now2 cid2 uid2 key2 rid2 jid2 ef2).store) := by
  have hreg : register s q now cid uid none rid jid ef =
      registerNoHit s q now cid uid none rid jid ef := rfl
  rcases htx : registerTx s now cid uid none rid with e | r2
  · refine ⟨⟨e, ?_⟩, ?_, ?_, ?_, ?_⟩
    · rw [hreg]; simp [registerNoHit, htx]
    · rw [hreg]; simp [registerNoHit, htx]
    · rw [hreg]; simp [registerNoHit, htx]
    · intro c hc hdel hdl hcap
      have htx2 : registerTx s now cid uid none rid =
          Except.error AdmitError.alreadyRegistered := by
        simp only [registerTx, hc]
        rw [if_neg (by simp [hdel]), if_neg (Nat.not_lt.mpr hdl),
          if_neg (Nat.not_le.mpr hcap), if_pos (by simp [hpair])]
      rw [hreg]; simp [registerNoHit, htx2]
    · intro s2 q2 now2 cid2 uid2 key2 rid2 jid2 ef2 h2
      exact register_preserves_pairUnique s2 q2 now2 cid2 uid2 key2 rid2 jid2 ef2 h2
  · exact absurd (registerTx_ok_elim htx).2 (by simp [hpair])

/-- C4 witness: a duplicate admission for user 5 into a competition with
room (capacity 5, one row) and an open deadline returns AlreadyRegistered. -/
theorem register_duplicate_pair_rejected_witness :
    (register
        ⟨[⟨5, "e", "e@x.io"⟩], [⟨0, "T", 5, 100, none, none⟩],
         [⟨8, 5, 0, none, 10, none⟩], [], []⟩
        [] 50 0 5 none 20 21 false).result =
      Except.error AdmitError.alreadyRegistered :=
  ((register_duplicate_pair_rejected _ [] 50 0 5 20 21 false
      ⟨8, 5, 0, none, 10, none⟩ (by decide)).2.2.2.1
    ⟨0, "T", 5, 100, none, none⟩ (by decide) rfl (by decide) (by decide))

/-- The value a no-hit `register` call returns is exactly the transaction's
outcome. -/
theorem registerNoHit_result (s : Store) (q : List Job) (now cid uid : Nat)
    (key : Option String) (rid jid : Nat) (ef : Bool) :
    (registerNoHit s q now cid uid key rid jid ef).result =
      registerTx s now cid uid key rid := by
  unfold registerNoHit
  cases htx : registerTx s now cid uid key rid with
  | error e => simp
  | ok r => cases ef <;> simp

/-- A failed transaction writes nothing: store and queue are unchanged. -/
theorem registerNoHit_error_frame (s : Store) (q : List Job)
    (now cid uid : Nat) (key : Option String) (rid jid : Nat) (ef : Bool)
    (e : AdmitError) (h : registerTx s now cid uid key rid = Except.error e) :
    (registerNoHit s q now cid uid key rid jid ef).store = s ∧
    (registerNoHit s q now cid uid key rid jid ef).queue = q := by
  unfold registerNoHit
  simp [h]

/-- A committed transaction appends exactly the created row to the store. -/
theorem registerNoHit_ok_frame (s : Store) (q : List Job)
    (now cid uid : Nat) (key : Option String) (rid jid : Nat) (ef : Bool)
    (r : Registration) (h : registerTx s now cid uid key rid = Except.ok r) :
    (registerNoHit s q now cid uid key rid jid ef).store = commitRegistration s r := by
  unfold registerNoHit
  cases ef <;> simp [h]

/-- C2: for an `admit` call with no idempotency hit, the transaction fails
NotFound exactly when the competition is absent or soft-deleted; given a
live competition it fails DeadlineExceeded exactly when now is strictly
after the deadline, regardless of capacity; given an open deadline it fails
CapacityExceeded exactly when count ≥ capacity; given spare capacity it
fails AlreadyRegistered exactly when a row for the (user, competition) pair
exists; only when every check passes does it insert the new Registration
(carrying the supplied key); and every failing outcome writes nothing. -/
theorem register_checks_in_order (s : Store) (q : List Job)
    (now cid uid : Nat) (key : Option String) (rid jid : Nat) (ef : Bool)
    (hkey : ∀ k, key = some k → findByKey s k = none) :
    ((register s q now cid uid key rid jid ef).result =
        Except.error AdmitError.notFound ↔
      findCompetition s cid = none ∨
        ∃ c, findCompetition s cid = some c ∧ c.deletedAt ≠ none) ∧
    (∀ c, findCompetition s cid = some c → c.deletedAt = none →
      ((register s q now cid uid key rid jid ef).result =
          Except.error AdmitError.deadlineExceeded ↔ c.regDeadline < now)) ∧
    (∀ c, findCompetition s cid = some c → c.deletedAt = none →
      now ≤ c.regDeadline →
      ((register s q now cid uid key rid jid ef).result =
          Except.error AdmitError.capacityExceeded ↔
        c.capacity ≤ countRegistrations s cid)) ∧
    (∀ c, findCompetition s cid = some c → c.deletedAt = none →
      now ≤ c.regDeadline → countRegistrations s cid < c.capacity →
      ((register s q now cid uid key rid jid ef).result =
          Except.error AdmitError.alreadyRegistered ↔
        (findByPair s uid cid).isSome = true)) ∧
    (∀ c, findCompetition s cid = some c → c.deletedAt = none →
      now ≤ c.regDeadline → countRegistrations s cid < c.capacity →
      findByPair s uid cid = none →
      (register s q now cid uid key rid jid ef).result =
          Except.ok ⟨rid, uid, cid, key, now, none⟩ ∧
        (register s q now cid uid key rid jid ef).store.registrations =
          s.registrations ++ [⟨rid, uid, cid, key, now, none⟩]) ∧
    (∀ e, (register s q now cid uid key rid jid ef).result = Except.error e →
      (register s q now cid uid key rid jid ef).store = s) := by
  have hreg : register s q now cid uid key rid jid ef =
      registerNoHit s q now cid uid key rid jid ef := by
    cases key with
    | none => rfl
    | some k => simp [register, hkey k rfl]
  have hres : (register s q now cid uid key rid jid ef).result =
      registerTx s now cid uid key rid := by
    rw [hreg, registerNoHit_result]
  have hframe : ∀ e, registerTx s now cid uid key rid = Except.error e →
      (register s q now cid uid key rid jid ef).store = s := by
    intro e he
    rw [hreg]
    exact (registerNoHit_error_frame s q now cid uid key rid jid ef e he).1
  cases hc : findCompetition s cid with
  | none =>
    have htx : registerTx s now cid uid key rid = Except.error AdmitError.notFound := by
      simp [registerTx, hc]
    refine ⟨?_, ?_, ?_, ?_, ?_, ?_⟩
    · simp [hres, htx]
    · intro c hc'; cases hc'
    · intro c hc'; cases hc'
    · intro c hc'; cases hc'
    · intro c hc'; cases hc'
    · intro e he; exact hframe _ htx
  | some comp =>
    by_cases h1 : comp.deletedAt.isSome = true
    · have htx : registerTx s now cid uid key rid = Except.error AdmitError.notFound := by
        simp only [registerTx, hc]
        rw [if_pos h1]
      refine ⟨?_, ?_, ?_, ?_, ?_, ?_⟩
      · rw [hres, htx]
        simp [Option.isSome_iff_ne_none.mp h1]
      · intro c hc' hdel
        cases hc'
        exact absurd h1 (by simp [hdel])
      · intro c hc' hdel
        cases hc'
        exact absurd h1 (by simp [hdel])
      · intro c hc' hdel
        cases hc'
        exact absurd h1 (by simp [hdel])
      · intro c hc' hdel
        cases hc'
        exact absurd h1 (by simp [hdel])
      · intro e he; exact hframe _ htx
    · have h1' : comp.deletedAt = none := by
        cases hd : comp.deletedAt with
        | none => rfl
        | some d => rw [hd] at h1; simp at h1
      by_cases h2 : comp.regDeadline < now
      · have htx : registerTx s now cid uid key rid =
            Except.error AdmitError.deadlineExceeded := by
          simp only [registerTx, hc]
          rw [if_neg h1, if_pos h2]
        refine ⟨?_, ?_, ?_, ?_, ?_, ?_⟩
        · rw [hres, htx]
          simp [h1']
        · intro c hc' hdel
          cases hc'
          rw [hres, htx]
          simp [h2]
        · intro c hc' hdel hdl
          cases hc'
          exact absurd h2 (Nat.not_lt.mpr hdl)
        · intro c hc' hdel hdl
          cases hc'
          exact absurd h2 (Nat.not_lt.mpr hdl)
        · intro c hc' hdel hdl
          cases hc'
          exact absurd h2 (Nat.not_lt.mpr hdl)
        · intro e he; exact hframe _ htx
      · by_cases h3 : comp.capacity ≤ countRegistrations s cid
        · have htx : registerTx s now cid uid key rid =
              Except.error AdmitError.capacityExceeded := by
            simp only [registerTx, hc]
            rw [if_neg h1, if_neg h2, if_pos h3]
          refine ⟨?_, ?_, ?_, ?_, ?_, ?_⟩
          · rw [hres, htx]
            simp [h1']
          · intro c hc' hdel
            cases hc'
            rw [hres, htx]
            simp [h2]
          · intro c hc' hdel hdl
            cases hc'
            rw [hres, htx]
            simp [h3]
          · intro c hc' hdel hdl hcap
            cases hc'
            exact absurd h3 (Nat.not_le.mpr hcap)
          · intro c hc' hdel hdl hcap
            cases hc'
            exact absurd h3 (Nat.not_le.mpr hcap)
          · intro e he; exact hframe _ htx
        · by_cases h4 : (findByPair s uid cid).isSome = true
          · have htx : registerTx s now cid uid key rid =
                Except.error AdmitError.alreadyRegistered := by
              simp only [registerTx, hc]
              rw [if_neg h1, if_neg h2, if_neg h3, if_pos h4]
            refine ⟨?_, ?_, ?_, ?_, ?_, ?_⟩
            · rw [hres, htx]
              simp [h1']
            · intro c hc' hdel
              cases hc'
              rw [hres, htx]
              simp [h2]
            · intro c hc' hdel hdl
              cases hc'
              rw [hres, htx]
              simp [h3]
            · intro c hc' hdel hdl hcap
              cases hc'
              rw [hres, htx]
              simp [h4]
            · intro c hc' hdel hdl hcap hnone
              cases hc'
              rw [hnone] at h4
              simp at h4
            · intro e he; exact hframe _ htx
          · have htx : registerTx s now cid uid key rid =
                Except.ok ⟨rid, uid, cid, key, now, none⟩ := by
              simp only [registerTx, hc]
              rw [if_neg h1, if_neg h2, if_neg h3, if_neg h4]
            refine ⟨?_, ?_, ?_, ?_, ?_, ?_⟩
            · rw [hres, htx]
              simp [h1']
            · intro c hc' hdel
              cases hc'
              rw [hres, htx]
              simp [h2]
            · intro c hc' hdel hdl
              cases hc'
              rw [hres, htx]
              simp [h3]
            · intro c hc' hdel hdl hcap
              cases hc'
              rw [hres, htx]
              simp [h4]
            · intro c hc' hdel hdl hcap hnone
              cases hc'
              refine ⟨by rw [hres, htx], ?_⟩
              rw [hreg, registerNoHit_ok_frame s q now cid uid key rid jid ef _ htx]
              rfl
            · intro e he
              rw [hres, htx] at he
              cases he

/-- C2 witness: with all checks passing (competition live, deadline open,
capacity 2 with no rows, user not yet registered) the call returns the new
row and appends exactly it to the store. -/
theorem register_checks_in_order_witness :
    (register
        ⟨[⟨5, "e", "e@x.io"⟩], [⟨0, "T", 2, 100, none, none⟩], [], [], []⟩
        [] 50 0 5 none 20 21 false).result =
      Except.ok ⟨20, 5, 0, none, 50, none⟩ ∧
    (register
        ⟨[⟨5, "e", "e@x.io"⟩], [⟨0, "T", 2, 100, none, none⟩], [], [], []⟩
        [] 50 0 5 none 20 21 false).store.registrations =
      [] ++ [⟨20, 5, 0, none, 50, none⟩] :=
  ((register_checks_in_order _ [] 50 0 5 none 20 21 false
      (fun _ hk => Option.noConfusion hk)).2.2.2.2.1
    ⟨0, "T", 2, 100, none, none⟩ (by decide) rfl (by decide) (by decide) (by decide))

/-- The Reminder job the modelled Scheduler enqueues for registration `r`
through the source-embedded `addReminderEmail` (the registration id doubles
as the model's job-id supply; payload and retry options as in the source). -/
def reminderJobFor (r : Registration) : Job :=
  ⟨r.id, "sendReminder", r.id, r.userId, r.competitionId, 0, 3, 2000⟩

/-- Folding `addReminderEmail` over registrations appends one Reminder job
per registration, in order. -/
theorem foldl_addReminder (regs : List Registration) (q : List Job) :
    regs.foldl (fun acc r => addReminderEmail acc r.id r.id r.userId r.competitionId) q =
      q ++ regs.map reminderJobFor := by
  induction regs generalizing q with
  | nil => simp
  | cons r rs ih =>
    rw [List.foldl_cons, ih]
    simp [addReminderEmail, reminderJobFor]

/-- The Scheduler's nested fold is an append of the per-competition,
per-active-registration Reminder jobs. -/
theorem foldl_reminders (s : Store) (comps : List Competition) (q : List Job) :
    comps.foldl (fun acc c => (activeRegs s c.id).foldl
        (fun acc2 r => addReminderEmail acc2 r.id r.id r.userId r.competitionId) acc) q =
      q ++ comps.flatMap (fun c => (activeRegs s c.id).map reminderJobFor) := by
  induction comps generalizing q with
  | nil => simp
  | cons c cs ih =>
    rw [List.foldl_cons, foldl_addReminder, ih]
    simp [List.flatMap_cons]

/-- Filtering mapped Reminder jobs by registration id is filtering the
registrations by id. -/
theorem filter_regId_map (l : List Registration) (rid : Nat) :
    (l.map reminderJobFor).filter (fun j => j.registrationId = rid) =
      (l.filter (fun x => x.id = rid)).map reminderJobFor := by
  induction l with
  | nil => rfl
  | cons h t ih =>
    by_cases hp : h.id = rid
    · simp [reminderJobFor, List.filter_cons, hp, ih]
    · simp [reminderJobFor, List.filter_cons, hp, ih]

/-- In a registration list with no duplicate ids, the rows carrying the id
of a member are exactly that member. -/
theorem filter_regId_unique {l : List Registration} {r : Registration}
    (hn : (l.map Registration.id).Nodup) (hr : r ∈ l) :
    l.filter (fun x => x.id = r.id) = [r] := by
  induction l with
  | nil => cases hr
  | cons h t ih =>
    rw [List.map_cons, List.nodup_cons] at hn
    rcases List.mem_cons.mp hr with rfl | hrt
    · have hempty : t.filter (fun x => x.id = r.id) = [] := by
        apply List.filter_eq_nil_iff.mpr
        intro x hx
        simp only [decide_eq_true_eq]
        intro hxr
        have hmem : x.id ∈ t.map Registration.id := List.mem_map_of_mem _ hx
        rw [hxr] at hmem
        exact hn.1 hmem
      simp [List.filter_cons, hempty]
    · have hne : ¬(h.id = r.id) := by
        intro he
        have hmem : r.id ∈ t.map Registration.id := List.mem_map_of_mem _ hrt
        rw [← he] at hmem
        exact hn.1 hmem
      simp [List.filter_cons, hne, ih hn.2 hrt]

/-- Membership in `activeRegs` unpacked: the row is a stored registration of
that competition (and not soft-deleted). -/
theorem activeRegs_elim {s : Store} {cid : Nat} {r : Registration}
    (h : r ∈ activeRegs s cid) :
    r ∈ s.registrations ∧ r.competitionId = cid := by
  unfold activeRegs at h
  refine ⟨(List.mem_filter.mp h).1, ?_⟩
  have hp := (List.mem_filter.mp h).2
  simp only [Bool.and_eq_true, decide_eq_true_eq] at hp
  exact hp.1

/-- Primary-key uniqueness survives the `activeRegs` filter. -/
theorem activeRegs_id_nodup {s : Store}
    (hrids : (s.registrations.map Registration.id).Nodup) (cid : Nat) :
    ((activeRegs s cid).map Registration.id).Nodup := by
  unfold activeRegs
  exact List.Nodup.sublist (List.Sublist.map _ (List.filter_sublist _)) hrids

/-- The active-registration fan-out of competition `cid0` holds exactly one
Reminder job for a registration active on it. -/
theorem reminder_filter_eq (s : Store) {r : Registration} (cid0 : Nat)
    (hrids : (s.registrations.map Registration.id).Nodup)
    (hr : r ∈ activeRegs s cid0) :
    ((activeRegs s cid0).map reminderJobFor).filter
        (fun j => j.registrationId = r.id) = [reminderJobFor r] := by
  rw [filter_regId_map, filter_regId_unique (activeRegs_id_nodup hrids cid0) hr]
  rfl

/-- The fan-out of a competition other than the registration's own holds no
job for it. -/
theorem reminder_filter_ne (s : Store) {r : Registration} (cid2 : Nat)
    (hrids : (s.registrations.map Registration.id).Nodup)
    (hrmem : r ∈ s.registrations) (hne : r.competitionId ≠ cid2) :
    ((activeRegs s cid2).map reminderJobFor).filter
        (fun j => j.registrationId = r.id) = [] := by
  rw [filter_regId_map]
  have hnil : (activeRegs s cid2).filter (fun x => x.id = r.id) = [] := by
    apply List.filter_eq_nil_iff.mpr
    intro x hx
    simp only [decide_eq_true_eq]
    intro hid
    rcases activeRegs_elim hx with ⟨hxmem, hxc⟩
    have hxr : x = r := List.inj_on_of_nodup_map hrids hxmem hrmem hid
    rw [hxr] at hxc
    exact hne hxc
  rw [hnil]
  rfl

/-- A filter over a flat map vanishes when it vanishes on every piece. -/
theorem filter_flatMap_nil {α β : Type} (l : List α) (f : α → List β)
    (p : β → Bool) (h : ∀ a ∈ l, (f a).filter p = []) :
    (l.flatMap f).filter p = [] := by
  induction l with
  | nil => rfl
  | cons a as ih =>
    rw [List.flatMap_cons, List.filter_append, h a (List.mem_cons_self a as),
      ih (fun b hb => h b (List.mem_cons_of_mem _ hb))]
    rfl

/-- The length of a flat map is the sum of the piece lengths. -/
theorem length_flatMap_sum {α β : Type} (l : List α) (f : α → List β) :
    (l.flatMap f).length = (l.map (fun a => (f a).length)).sum := by
  induction l with
  | nil => rfl
  | cons a as ih => simp [List.flatMap_cons, ih]

/-- Across a window with no duplicate competition ids, an active
registration of a member competition is fanned out exactly once. -/
theorem reminder_count_one (s : Store) (r : Registration)
    (hrids : (s.registrations.map Registration.id).Nodup) :
    ∀ (comps : List Competition), (comps.map Competition.id).Nodup →
      ∀ c ∈ comps, r ∈ activeRegs s c.id →
      ((comps.flatMap (fun c2 => (activeRegs s c2.id).map reminderJobFor)).filter
          (fun j => j.registrationId = r.id)).length = 1 := by
  intro comps
  induction comps with
  | nil => intro _ c hc; cases hc
  | cons c0 cs ih =>
    intro hcids c hc hr
    rw [List.map_cons, List.nodup_cons] at hcids
    rcases activeRegs_elim hr with ⟨hrmem, hrc⟩
    rw [List.flatMap_cons, List.filter_append, List.length_append]
    rcases List.mem_cons.mp hc with heq | hcs
    · subst heq
      rw [reminder_filter_eq s c.id hrids hr]
      have hrest : ((cs.flatMap (fun c2 => (activeRegs s c2.id).map reminderJobFor)).filter
          (fun j => j.registrationId = r.id)) = [] := by
        apply filter_flatMap_nil
        intro c2 hc2
        apply reminder_filter_ne s c2.id hrids hrmem
        rw [hrc]
        intro hcc
        have hmem : c2.id ∈ cs.map Competition.id := List.mem_map_of_mem _ hc2
        rw [← hcc] at hmem
        exact hcids.1 hmem
      rw [hrest]
      rfl
    · have hne0 : r.competitionId ≠ c0.id := by
        rw [hrc]
        intro hcc
        have hmem : c.id ∈ cs.map Competition.id := List.mem_map_of_mem _ hcs
        rw [hcc] at hmem
        exact hcids.1 hmem
      rw [reminder_filter_ne s c0.id hrids hrmem hne0]
      simp only [List.length_nil, Nat.zero_add]
      exact ih hcids.2 c hcs hr

/-- C9: every Scheduler run enqueues, for every competition whose start time
falls in the lookahead window, exactly one Reminder task per active
Registration, and nothing else: the pre-existing queue is kept as a prefix,
every appended job is the Reminder task of an active registration of some
in-window competition, each such registration receives exactly one task,
and the queue grows by exactly the total active-registration count over the
window.  The two Nodup hypotheses are the store's primary keys on
Competition.id and Registration.id. -/
theorem scheduler_reminder_per_active_registration (s : Store) (q : List Job)
    (now : Nat)
    (hcids : (s.competitions.map Competition.id).Nodup)
    (hrids : (s.registrations.map Registration.id).Nodup) :
    ((sendReminders s q now).take q.length = q) ∧
    (∀ j ∈ (sendReminders s q now).drop q.length,
      ∃ c ∈ compsInWindow s now, ∃ r ∈ activeRegs s c.id, j = reminderJobFor r) ∧
    (∀ c ∈ compsInWindow s now, ∀ r ∈ activeRegs s c.id,
      (((sendReminders s q now).drop q.length).filter
          (fun j => j.registrationId = r.id)).length = 1) ∧
    ((sendReminders s q now).drop q.length).length =
      ((compsInWindow s now).map (fun c => (activeRegs s c.id).length)).sum := by
  have hwin : ((compsInWindow s now).map Competition.id).Nodup := by
    unfold compsInWindow
    exact List.Nodup.sublist (List.Sublist.map _ (List.filter_sublist _)) hcids
  have hsend : sendReminders s q now =
      q ++ (compsInWindow s now).flatMap
        (fun c => (activeRegs s c.id).map reminderJobFor) := by
    unfold sendReminders
    exact foldl_reminders s (compsInWindow s now) q
  refine ⟨?_, ?_, ?_, ?_⟩
  · rw [hsend, List.take_left]
  · rw [hsend, List.drop_left]
    intro j hj
    rcases List.mem_flatMap.mp hj with ⟨c, hcmem, hjc⟩
    rcases List.mem_map.mp hjc with ⟨r, hrmem, rfl⟩
    exact ⟨c, hcmem, r, hrmem, rfl⟩
  · rw [hsend, List.drop_left]
    intro c hcmem r hrmem
    exact reminder_count_one s r hrids (compsInWindow s now) hwin c hcmem hrmem
  · rw [hsend, List.drop_left, length_flatMap_sum]
    simp

/-- C9 witness: at now = 0 a competition starting at 88200000 ms (24.5 h
out, inside the spec's 23–25 h scenario band and the modelled [24 h, 48 h)
window) has two active registrations; each of them receives exactly one
Reminder task and the run appends exactly two jobs. -/
theorem scheduler_reminder_per_active_registration_witness :
    (((sendReminders
          ⟨[⟨4, "a", "a@x.io"⟩, ⟨6, "b", "b@x.io"⟩],
           [⟨0, "T", 10, 100, some 88200000, none⟩],
           [⟨1, 4, 0, none, 10, none⟩, ⟨2, 6, 0, none, 11, none⟩], [], []⟩
          [] 0).drop (List.length ([] : List Job))).filter
        (fun j => j.registrationId = (1 : Nat))).length = 1 ∧
    (((sendReminders
          ⟨[⟨4, "a", "a@x.io"⟩, ⟨6, "b", "b@x.io"⟩],
           [⟨0, "T", 10, 100, some 88200000, none⟩],
           [⟨1, 4, 0, none, 10, none⟩, ⟨2, 6, 0, none, 11, none⟩], [], []⟩
          [] 0).drop (List.length ([] : List Job))).filter
        (fun j => j.registrationId = (2 : Nat))).length = 1 ∧
    ((sendReminders
          ⟨[⟨4, "a", "a@x.io"⟩, ⟨6, "b", "b@x.io"⟩],
           [⟨0, "T", 10, 100, some 88200000, none⟩],
           [⟨1, 4, 0, none, 10, none⟩, ⟨2, 6, 0, none, 11, none⟩], [], []⟩
          [] 0).drop (List.length ([] : List Job))).length =
      ((compsInWindow
          ⟨[⟨4, "a", "a@x.io"⟩, ⟨6, "b", "b@x.io"⟩],
           [⟨0, "T", 10, 100, some 88200000, none⟩],
           [⟨1, 4, 0, none, 10, none⟩, ⟨2, 6, 0, none, 11, none⟩], [], []⟩
          0).map (fun c => (activeRegs
            ⟨[⟨4, "a", "a@x.io"⟩, ⟨6, "b", "b@x.io"⟩],
             [⟨0, "T", 10, 100, some 88200000, none⟩],
             [⟨1, 4, 0, none, 10, none⟩, ⟨2, 6, 0, none, 11, none⟩], [], []⟩
            c.id).length)).sum :=
  ⟨(scheduler_reminder_per_active_registration
        ⟨[⟨4, "a", "a@x.io"⟩, ⟨6, "b", "b@x.io"⟩],
         [⟨0, "T", 10, 100, some 88200000, none⟩],
         [⟨1, 4, 0, none, 10, none⟩, ⟨2, 6, 0, none, 11, none⟩], [], []⟩
        [] 0 (by decide) (by decide)).2.2.1
      ⟨0, "T", 10, 100, some 88200000, none⟩ (by decide)
      ⟨1, 4, 0, none, 10, none⟩ (by decide),
   (scheduler_reminder_per_active_registration
        ⟨[⟨4, "a", "a@x.io"⟩, ⟨6, "b", "b@x.io"⟩],
         [⟨0, "T", 10, 100, some 88200000, none⟩],
         [⟨1, 4, 0, none, 10, none⟩, ⟨2, 6, 0, none, 11, none⟩], [], []⟩
        [] 0 (by decide) (by decide)).2.2.1
      ⟨0, "T", 10, 100, some 88200000, none⟩ (by decide)
      ⟨2, 6, 0, none, 11, none⟩ (by decide),
   (scheduler_reminder_per_active_registration
        ⟨[⟨4, "a", "a@x.io"⟩, ⟨6, "b", "b@x.io"⟩],
         [⟨0, "T", 10, 100, some 88200000, none⟩],
         [⟨1, 4, 0, none, 10, none⟩, ⟨2, 6, 0, none, 11, none⟩], [], []⟩
        [] 0 (by decide) (by decide)).2.2.2⟩

end MiniCompete
